import Mathlib

/-
Verification of the terminal-cell core of rio (src/crosswords/square.rs).

The embedding models:
  - the bitflags-generated Flags type as 16-bit patterns stored in Nat,
    with the bitflags operations contains / insert / remove / intersects;
  - CellExtra and its Arc<CellExtra> handle: Arcs live in an explicit
    Store (a heap of CellExtra records with reference counts); an Arc is
    an index into that heap, and Arc::make_mut clones the record to a
    fresh index exactly when the reference count is at least 2;
  - Square with its operations zerowidth, push_zerowidth, clear_wide,
    is_empty, reset, the LineLength impl for Row<Square> (a row is a
    List Square), and the ResetDiscriminant impls.

The color type is external to the translated file (the colors crate); it
is modelled as a small inductive with the two named colors the defaults
use plus representative other constructors.
-/

inductive NamedColor where
  | Black
  | Foreground
  | White
deriving DecidableEq

inductive AnsiColor where
  | Named (color : NamedColor)
  | Spec (r g b : Nat)
  | Indexed (idx : Nat)
deriving DecidableEq

namespace Flags

def INVERSE : Nat := 0x0001

def BOLD : Nat := 0x0002

def ITALIC : Nat := 0x0004

def BOLD_ITALIC : Nat := 0x0006

def UNDERLINE : Nat := 0x0008

def WRAPLINE : Nat := 0x0010

def WIDE_CHAR : Nat := 0x0020

def WIDE_CHAR_SPACER : Nat := 0x0040

def DIM : Nat := 0x0080

def DIM_BOLD : Nat := 0x0082

def HIDDEN : Nat := 0x0100

def STRIKEOUT : Nat := 0x0200

def LEADING_WIDE_CHAR_SPACER : Nat := 0x0400

def DOUBLE_UNDERLINE : Nat := 0x0800

def UNDERCURL : Nat := 0x1000

def DOTTED_UNDERLINE : Nat := 0x2000

def DASHED_UNDERLINE : Nat := 0x4000

/-- Flags::empty() of bitflags. -/
def empty : Nat := 0

/-- bitflags contains: all bits of the argument are set. -/
def contains (s f : Nat) : Bool := s &&& f == f

/-- bitflags insert: bitwise or. -/
def insert (s f : Nat) : Nat := s ||| f

/-- bitflags remove: clear the argument bits (complement inside u16). -/
def remove (s f : Nat) : Nat := s &&& (f ^^^ 0xFFFF)

/-- bitflags intersects: some common bit is set. -/
def intersects (s f : Nat) : Bool := s &&& f != 0

end Flags

/-- Dynamically allocated cell content (struct CellExtra). -/
structure CellExtra where
  zerowidth : List Char
deriving DecidableEq

/-- Default for CellExtra: empty zerowidth vector. -/
def CellExtra.default : CellExtra := { zerowidth := [] }

/-- Heap of Arc<CellExtra> allocations: contents, strong counts, next
fresh index. An Arc handle is an index into this heap. -/
structure Store where
  mem : Nat → CellExtra
  rc : Nat → Nat
  next : Nat

/-- Arc::new: allocate a record at a fresh index with strong count 1. -/
def Store.alloc (s : Store) (e : CellExtra) : Store × Nat :=
  ({ mem := Function.update s.mem s.next e,
     rc := Function.update s.rc s.next 1,
     next := s.next + 1 }, s.next)

/-- Arc::make_mut on handle i: when the strong count is at least 2,
clone the record to a fresh index (the caller drops its share of the old
record), otherwise mutate in place. Returns the handle to mutate. -/
def Store.makeMut (s : Store) (i : Nat) : Store × Nat :=
  if 2 ≤ s.rc i then
    let cloned := s.alloc (s.mem i)
    ({ cloned.1 with rc := Function.update cloned.1.rc i (s.rc i - 1) }, cloned.2)
  else
    (s, i)

/-- Content and attributes of a single cell in the terminal grid
(struct Square). extra is the optional Arc<CellExtra> handle. -/
structure Square where
  c : Char
  fg : AnsiColor
  bg : AnsiColor
  extra : Option Nat
  flags : Nat
deriving DecidableEq

/-- impl Default for Square. -/
def Square.default : Square :=
  { c := ' ',
    bg := AnsiColor.Named NamedColor.Black,
    fg := AnsiColor.Named NamedColor.Foreground,
    extra := none,
    flags := Flags.empty }

/-- Square::zerowidth: the attached zero-width characters, when the
extra payload is present. -/
def Square.zerowidth (s : Store) (sq : Square) : Option (List Char) :=
  sq.extra.map (fun i => (s.mem i).zerowidth)

/-- self.extra.get_or_insert(Default::default()): reuse the present
handle, or allocate a default CellExtra and adopt its handle. -/
def Square.getOrInsertExtra (s : Store) (sq : Square) : Store × Square × Nat :=
  match sq.extra with
  | some i => (s, sq, i)
  | none =>
    let a := s.alloc CellExtra.default
    (a.1, { sq with extra := some a.2 }, a.2)

/-- Square::push_zerowidth: get_or_insert the extra payload, then
Arc::make_mut(extra).zerowidth.push(character); the cell adopts the
handle make_mut leaves it with. -/
def Square.push_zerowidth (s : Store) (sq : Square) (character : Char) : Store × Square :=
  let g := Square.getOrInsertExtra s sq
  let m := g.1.makeMut g.2.2
  let e := m.1.mem m.2
  ({ m.1 with mem := Function.update m.1.mem m.2 { e with zerowidth := e.zerowidth ++ [character] } },
   { g.2.1 with extra := some m.2 })

/-- Square::clear_wide: remove WIDE_CHAR, replace the payload's
zerowidth vector with an empty one when a payload is present (via
Arc::make_mut), and reset the character to space. -/
def Square.clear_wide (s : Store) (sq : Square) : Store × Square :=
  let flags1 := Flags.remove sq.flags Flags.WIDE_CHAR
  match sq.extra with
  | some i =>
    let m := s.makeMut i
    ({ m.1 with mem := Function.update m.1.mem m.2 { m.1.mem m.2 with zerowidth := [] } },
     { sq with c := ' ', extra := some m.2, flags := flags1 })
  | none =>
    (s, { sq with c := ' ', flags := flags1 })

/-- GridSquare::is_empty for Square. -/
def Square.is_empty (s : Store) (sq : Square) : Bool :=
  (sq.c == ' ' || sq.c == '\t')
    && !(Flags.intersects sq.flags
          (Flags.INVERSE ||| Flags.STRIKEOUT ||| Flags.WRAPLINE
            ||| Flags.WIDE_CHAR_SPACER ||| Flags.LEADING_WIDE_CHAR_SPACER))
    && (sq.extra.map (fun i => (s.mem i).zerowidth.isEmpty) != some false)

/-- GridSquare::reset for Square: wholesale replacement by the default
Square except the background comes from the template. -/
def Square.reset (_self : Square) (template : Square) : Square :=
  { Square.default with bg := template.bg }

/-- LineLength for Row<Square>: a row is a list of Squares; the last
cell carrying WRAPLINE forces the full width, otherwise the reversed
scan stops at the first cell with a non-space character or a non-empty
zerowidth vector. List.findIdx returns the list length when no cell
matches, making the subtraction yield 0 exactly as the Rust loop does. -/
def line_length (s : Store) (row : List Square) : Nat :=
  if Flags.contains (row.getD (row.length - 1) Square.default).flags Flags.WRAPLINE then
    row.length
  else
    row.length -
      row.reverse.findIdx
        (fun cell => cell.c != ' '
          || (cell.extra.map (fun i => (s.mem i).zerowidth.isEmpty) == some false))

/-- Modelled from the spec (§4.4 Line-Length Protocol), for comparison
with line_length: full width when the last cell has the
wrap-continuation marker; otherwise the first cell from the end whose
character is not a space or whose payload has a non-empty
attached-character sequence gives width minus its from-the-end index;
0 when no such cell exists. -/
def lineLengthSpec (s : Store) (row : List Square) : Nat :=
  if Flags.contains (row.getLast?.getD Square.default).flags Flags.WRAPLINE then
    row.length
  else
    match row.reverse.findIdx?
        (fun cell => cell.c != ' '
          || (cell.extra.map (fun i => (s.mem i).zerowidth.isEmpty) == some false)) with
    | some idx => row.length - idx
    | none => 0

/-- impl ResetDiscriminant<T> for T where T: Copy — the discriminant of
a plain value is the value itself. -/
def discriminant {T : Type} (x : T) : T := x

/-- impl ResetDiscriminant<AnsiColor> for Square — the discriminant of
a Square is its background color. -/
def Square.discriminant (sq : Square) : AnsiColor := sq.bg

/-- An empty heap: no allocation has happened yet. -/
def emptyStore : Store := { mem := fun _ => CellExtra.default, rc := fun _ => 0, next := 0 }

/-- A default Square carrying the given character. -/
def mkCharSquare (ch : Char) : Square := { Square.default with c := ch }

/-- The row "ab   " of width 5, no wrap flag, no attached characters. -/
def rowAb : List Square :=
  [mkCharSquare 'a', mkCharSquare 'b', Square.default, Square.default, Square.default]

/-- A heap with one live record at index 0 holding one attached
character, with strong count 2 (shared between two cells). -/
def sharedStore : Store :=
  { mem := fun _ => { zerowidth := ['x'] }, rc := fun _ => 2, next := 1 }

/-- A default Square whose extra handle is index 0. -/
def sharedSq : Square := { Square.default with extra := some 0 }

/-- A Square with some styling, used to instantiate frame theorems. -/
def styledSq : Square :=
  { c := 'W',
    fg := AnsiColor.Indexed 3,
    bg := AnsiColor.Spec 1 2 3,
    extra := none,
    flags := Flags.insert (Flags.insert Flags.empty Flags.BOLD) Flags.WIDE_CHAR }

/-- Claim C6: the bold-italic combo flag is the bitwise union of the
bold and italic flags, and the dim-bold combo flag is the bitwise union
of the dim and bold flags. -/
theorem combo_flags_are_unions :
    Flags.BOLD_ITALIC = Flags.BOLD ||| Flags.ITALIC ∧
    Flags.DIM_BOLD = Flags.DIM ||| Flags.BOLD := by
  decide

/-- Claim C7: a Square's discriminant is its background color, whatever
its other fields; the default discriminant of a plain value is the
value itself. -/
theorem discriminant_of_square_is_bg :
    (∀ sq : Square, sq.discriminant = sq.bg) ∧
    (∀ (T : Type) (x : T), discriminant x = x) :=
  ⟨fun _ => rfl, fun _ _ => rfl⟩

/-- Witness for claim C7 at a concrete Square. -/
theorem discriminant_of_square_is_bg_witness :
    styledSq.discriminant = styledSq.bg :=
  discriminant_of_square_is_bg.1 styledSq

/-- Claim C4: reset yields the default Square with the template's
background, for every prior state; the result depends on nothing but
the template's background. -/
theorem reset_is_default_with_template_bg (sq template : Square) :
    Square.reset sq template = { Square.default with bg := template.bg } ∧
    ((Square.reset sq template).c = ' ' ∧
      (Square.reset sq template).fg = Square.default.fg ∧
      (Square.reset sq template).flags = Flags.empty ∧
      (Square.reset sq template).extra = none ∧
      (Square.reset sq template).bg = template.bg) ∧
    (∀ sq2 template2 : Square, template2.bg = template.bg →
      Square.reset sq2 template2 = Square.reset sq template) := by
  refine ⟨rfl, ⟨rfl, rfl, rfl, rfl, rfl⟩, ?_⟩
  intro sq2 template2 h
  simp [Square.reset, h]

/-- Witness for claim C4 at a concrete Square and template. -/
theorem reset_is_default_with_template_bg_witness :
    Square.reset styledSq sharedSq = { Square.default with bg := sharedSq.bg } ∧
    ((Square.reset styledSq sharedSq).c = ' ' ∧
      (Square.reset styledSq sharedSq).fg = Square.default.fg ∧
      (Square.reset styledSq sharedSq).flags = Flags.empty ∧
      (Square.reset styledSq sharedSq).extra = none ∧
      (Square.reset styledSq sharedSq).bg = sharedSq.bg) ∧
    Square.reset Square.default styledSq ≠ Square.reset styledSq sharedSq :=
  ⟨(reset_is_default_with_template_bg styledSq sharedSq).1,
   (reset_is_default_with_template_bg styledSq sharedSq).2.1,
   by decide⟩

/-- Claim C9: line_length is total on nonempty rows and its value never
exceeds the row width. -/
theorem line_length_le_width (s : Store) (row : List Square) (_hrow : row ≠ []) :
    line_length s row ≤ row.length := by
  unfold line_length
  split
  · exact Nat.le_refl _
  · exact Nat.sub_le _ _

/-- Witness for claim C9 on the concrete row "ab   ". -/
theorem line_length_le_width_witness :
    rowAb ≠ [] ∧ line_length emptyStore rowAb ≤ rowAb.length :=
  ⟨by decide, line_length_le_width emptyStore rowAb (by decide)⟩

/-- Removing a 16-bit flag pattern clears every one of its bits. -/
theorem remove_land_self (x f : Nat) (hf : f < 65536) :
    Flags.remove x f &&& f = 0 := by
  unfold Flags.remove
  rw [Nat.and_assoc]
  have hmask : (f ^^^ 0xFFFF) &&& f = 0 := by
    apply Nat.eq_of_testBit_eq
    intro k
    simp only [Nat.testBit_and, Nat.testBit_xor, Nat.zero_testBit]
    by_cases hk : k < 16
    · have h1 : Nat.testBit 0xFFFF k = true := by
        have h2 : (0xFFFF : Nat) = 2 ^ 16 - 1 := by norm_num
        rw [h2, Nat.testBit_two_pow_sub_one]
        simp [hk]
      cases hfk : f.testBit k <;> simp [h1, hfk]
    · have h1 : f.testBit k = false := by
        apply Nat.testBit_lt_two_pow
        calc f < 65536 := hf
          _ = 2 ^ 16 := by norm_num
          _ ≤ 2 ^ k := Nat.pow_le_pow_right (by norm_num) (Nat.le_of_not_lt hk)
      simp [h1]
  rw [hmask, Nat.and_zero]

/-- Claim C3: is_empty holds exactly when the character is space or
tab, the flags miss every bit of INVERSE, STRIKEOUT, WRAPLINE,
WIDE_CHAR_SPACER and LEADING_WIDE_CHAR_SPACER, and the payload, when
present, has an empty zerowidth vector. -/
theorem is_empty_iff (s : Store) (sq : Square) :
    Square.is_empty s sq = true ↔
      ((sq.c = ' ' ∨ sq.c = '\t') ∧
        sq.flags &&& (Flags.INVERSE ||| Flags.STRIKEOUT ||| Flags.WRAPLINE
          ||| Flags.WIDE_CHAR_SPACER ||| Flags.LEADING_WIDE_CHAR_SPACER) = 0 ∧
        ∀ i, sq.extra = some i → (s.mem i).zerowidth = []) := by
  obtain ⟨c, fg, bg, extra, flags⟩ := sq
  cases extra with
  | none =>
    simp [Square.is_empty, Flags.intersects, List.isEmpty_iff]
  | some i =>
    simp [Square.is_empty, Flags.intersects, List.isEmpty_iff]
    tauto

/-- Witness for claim C3 on the default Square. -/
theorem is_empty_iff_witness :
    Square.is_empty emptyStore Square.default = true :=
  (is_empty_iff emptyStore Square.default).mpr
    ⟨Or.inl rfl, by decide, fun i h => by simp [Square.default] at h⟩

/-- Claim C5: after clear_wide the character is a space, WIDE_CHAR is
gone from the flags, and the observed attached-character sequence is
empty (absent payload, or a payload with an empty vector). -/
theorem clear_wide_clears (s : Store) (sq : Square) :
    (Square.clear_wide s sq).2.c = ' ' ∧
    Flags.contains (Square.clear_wide s sq).2.flags Flags.WIDE_CHAR = false ∧
    (Square.zerowidth (Square.clear_wide s sq).1 (Square.clear_wide s sq).2 = none ∨
      Square.zerowidth (Square.clear_wide s sq).1 (Square.clear_wide s sq).2 = some []) := by
  have hwide : ∀ x : Nat, Flags.contains (Flags.remove x Flags.WIDE_CHAR) Flags.WIDE_CHAR = false := by
    intro x
    have h0 : Flags.remove x Flags.WIDE_CHAR &&& Flags.WIDE_CHAR = 0 :=
      remove_land_self x Flags.WIDE_CHAR (by decide)
    simp only [Flags.contains, h0]
    decide
  obtain ⟨c, fg, bg, extra, flags⟩ := sq
  cases extra with
  | none =>
    exact ⟨rfl, hwide flags, Or.inl rfl⟩
  | some i =>
    refine ⟨rfl, hwide flags, Or.inr ?_⟩
    simp [Square.clear_wide, Square.zerowidth]

/-- Witness for claim C5 on a shared payload with one attached
character. -/
theorem clear_wide_clears_witness :
    (Square.clear_wide sharedStore sharedSq).2.c = ' ' ∧
    Flags.contains (Square.clear_wide sharedStore sharedSq).2.flags Flags.WIDE_CHAR = false ∧
    (Square.zerowidth (Square.clear_wide sharedStore sharedSq).1
        (Square.clear_wide sharedStore sharedSq).2 = none ∨
      Square.zerowidth (Square.clear_wide sharedStore sharedSq).1
        (Square.clear_wide sharedStore sharedSq).2 = some []) :=
  clear_wide_clears sharedStore sharedSq

/-- Removing a flag pattern leaves every bit outside the pattern of a
16-bit flag set unchanged. -/
theorem remove_testBit_of_not_mem (x f k : Nat) (hx : x < 65536)
    (hfk : Nat.testBit f k = false) :
    Nat.testBit (Flags.remove x f) k = Nat.testBit x k := by
  unfold Flags.remove
  simp only [Nat.testBit_and, Nat.testBit_xor, hfk, Bool.false_xor]
  by_cases hk : k < 16
  · have h1 : Nat.testBit 0xFFFF k = true := by
      have h2 : (0xFFFF : Nat) = 2 ^ 16 - 1 := by norm_num
      rw [h2, Nat.testBit_two_pow_sub_one]
      simp [hk]
    simp [h1]
  · have h2 : 2 ^ 16 ≤ 2 ^ k := Nat.pow_le_pow_right (by norm_num) (Nat.le_of_not_lt hk)
    have h1 : Nat.testBit 0xFFFF k = false := by
      apply Nat.testBit_lt_two_pow
      omega
    have h3 : Nat.testBit x k = false := by
      apply Nat.testBit_lt_two_pow
      omega
    simp [h1, h3]

/-- Claim C8: for disjoint 16-bit flag patterns f and g, inserting f
into a set and then removing f leaves the membership of g unchanged. -/
theorem insert_remove_preserves_disjoint (s f g : Nat) (_hf : f < 65536) (hg : g < 65536)
    (hdisj : f &&& g = 0) :
    Flags.contains (Flags.remove (Flags.insert s f) f) g = Flags.contains s g := by
  have key : Flags.remove (Flags.insert s f) f &&& g = s &&& g := by
    unfold Flags.remove Flags.insert
    apply Nat.eq_of_testBit_eq
    intro k
    simp only [Nat.testBit_and, Nat.testBit_or, Nat.testBit_xor]
    by_cases hk : k < 16
    · have h65535 : Nat.testBit 0xFFFF k = true := by
        have h2 : (0xFFFF : Nat) = 2 ^ 16 - 1 := by norm_num
        rw [h2, Nat.testBit_two_pow_sub_one]
        simp [hk]
      have hfg : (f.testBit k && g.testBit k) = false := by
        rw [← Nat.testBit_and, hdisj, Nat.zero_testBit]
      rw [h65535]
      cases hfk : f.testBit k <;> cases hgk : g.testBit k <;> simp_all
    · have hgk : g.testBit k = false := by
        apply Nat.testBit_lt_two_pow
        have h2 : 2 ^ 16 ≤ 2 ^ k := Nat.pow_le_pow_right (by norm_num) (Nat.le_of_not_lt hk)
        omega
      simp [hgk]
  simp [Flags.contains, key]

/-- Witness for claim C8 with the bold and underline flags. -/
theorem insert_remove_preserves_disjoint_witness :
    Flags.BOLD < 65536 ∧ Flags.UNDERLINE < 65536 ∧ Flags.BOLD &&& Flags.UNDERLINE = 0 ∧
    Flags.contains (Flags.remove (Flags.insert 9 Flags.BOLD) Flags.BOLD) Flags.UNDERLINE
      = Flags.contains 9 Flags.UNDERLINE :=
  ⟨by decide, by decide, by decide,
   insert_remove_preserves_disjoint 9 Flags.BOLD Flags.UNDERLINE
     (by decide) (by decide) (by decide)⟩

/-- Claim C10: clear_wide keeps the foreground, the background and
every flag bit outside WIDE_CHAR, and it creates no payload: when the
extra handle was absent it stays absent and zerowidth still observes
nothing. -/
theorem clear_wide_frame (s : Store) (sq : Square) (hflags : sq.flags < 65536) :
    (Square.clear_wide s sq).2.fg = sq.fg ∧
    (Square.clear_wide s sq).2.bg = sq.bg ∧
    (∀ k, Nat.testBit Flags.WIDE_CHAR k = false →
      Nat.testBit (Square.clear_wide s sq).2.flags k = Nat.testBit sq.flags k) ∧
    (sq.extra = none →
      (Square.clear_wide s sq).2.extra = none ∧
      Square.zerowidth (Square.clear_wide s sq).1 (Square.clear_wide s sq).2 = none) := by
  obtain ⟨c, fg, bg, extra, flags⟩ := sq
  have hbit : ∀ k, Nat.testBit Flags.WIDE_CHAR k = false →
      Nat.testBit (Flags.remove flags Flags.WIDE_CHAR) k = Nat.testBit flags k := by
    intro k hk
    exact remove_testBit_of_not_mem flags Flags.WIDE_CHAR k hflags hk
  cases extra with
  | none =>
    exact ⟨rfl, rfl, hbit, fun _ => ⟨rfl, rfl⟩⟩
  | some i =>
    refine ⟨rfl, rfl, hbit, fun h => nomatch h⟩

/-- Witness for claim C10 on a styled wide Square with no payload. -/
theorem clear_wide_frame_witness :
    styledSq.flags < 65536 ∧
    (Square.clear_wide emptyStore styledSq).2.fg = styledSq.fg ∧
    (Square.clear_wide emptyStore styledSq).2.bg = styledSq.bg ∧
    Nat.testBit (Square.clear_wide emptyStore styledSq).2.flags 1
      = Nat.testBit styledSq.flags 1 ∧
    (Square.clear_wide emptyStore styledSq).2.extra = none ∧
    Square.zerowidth (Square.clear_wide emptyStore styledSq).1
      (Square.clear_wide emptyStore styledSq).2 = none := by
  have h := clear_wide_frame emptyStore styledSq (by decide)
  exact ⟨by decide, h.1, h.2.1, h.2.2.1 1 (by decide), (h.2.2.2 rfl).1, (h.2.2.2 rfl).2⟩

/-- getOrInsertExtra reuses a present extra handle. -/
theorem getOrInsertExtra_some (s : Store) (sq : Square) (i : Nat) (h : sq.extra = some i) :
    Square.getOrInsertExtra s sq = (s, sq, i) := by
  unfold Square.getOrInsertExtra
  rw [h]

/-- Claim C1: pushing a zero-width character onto a cell whose payload
handle is shared (strong count at least 2, handle live in the heap)
leaves the sibling cell's observed zerowidth sequence unchanged, and
the mutating cell observes its old sequence with the character
appended. -/
theorem push_zerowidth_cow (s : Store) (sq1 sq2 : Square) (character : Char) (i : Nat)
    (h1 : sq1.extra = some i) (h2 : sq2.extra = some i)
    (hi : i < s.next) (hshared : 2 ≤ s.rc i) :
    Square.zerowidth (Square.push_zerowidth s sq1 character).1 sq2
        = Square.zerowidth s sq2 ∧
    Square.zerowidth (Square.push_zerowidth s sq1 character).1
        (Square.push_zerowidth s sq1 character).2
      = some ((s.mem i).zerowidth ++ [character]) := by
  have hne : i ≠ s.next := Nat.ne_of_lt hi
  refine ⟨?_, ?_⟩ <;>
    simp [Square.push_zerowidth, getOrInsertExtra_some s sq1 i h1, Store.makeMut,
      hshared, Store.alloc, Square.zerowidth, h2, Function.update_apply, hne]

/-- Witness for claim C1: two default cells both holding handle 0 of a
heap whose record 0 has strong count 2 and one attached character. -/
theorem push_zerowidth_cow_witness :
    sharedSq.extra = some 0 ∧ (0 : Nat) < sharedStore.next ∧ 2 ≤ sharedStore.rc 0 ∧
    Square.zerowidth (Square.push_zerowidth sharedStore sharedSq 'y').1 sharedSq
        = Square.zerowidth sharedStore sharedSq ∧
    Square.zerowidth (Square.push_zerowidth sharedStore sharedSq 'y').1
        (Square.push_zerowidth sharedStore sharedSq 'y').2
      = some ((sharedStore.mem 0).zerowidth ++ ['y']) :=
  ⟨rfl, by decide, by decide,
   (push_zerowidth_cow sharedStore sharedSq sharedSq 'y' 0 rfl rfl (by decide) (by decide)).1,
   (push_zerowidth_cow sharedStore sharedSq sharedSq 'y' 0 rfl rfl (by decide) (by decide)).2⟩

/-- Claim C2: line_length agrees with the spec's description on every
nonempty row, and returns 2 on the width-5 row "ab   " with no wrap
flag and no attached characters. -/
theorem line_length_matches_spec :
    (∀ (s : Store) (row : List Square), row ≠ [] →
      line_length s row = lineLengthSpec s row) ∧
    line_length emptyStore rowAb = 2 := by
  constructor
  · intro s row _hrow
    unfold line_length lineLengthSpec
    have hlast : row.getD (row.length - 1) Square.default
        = row.getLast?.getD Square.default := by
      rw [List.getLast?_eq_getElem?]
      simp
    rw [hlast]
    split
    · rfl
    · cases hfind : row.reverse.findIdx?
          (fun cell => cell.c != ' '
            || (cell.extra.map (fun i => (s.mem i).zerowidth.isEmpty) == some false)) with
      | none =>
        have hidx := List.findIdx?_eq_none_iff_findIdx_eq.mp hfind
        rw [hidx, List.length_reverse, Nat.sub_self]
      | some idx =>
        have hidx := (List.findIdx?_eq_some_iff_findIdx_eq.mp hfind).2
        rw [hidx]
  · decide

/-- Witness for claim C2 on the concrete row "ab   ". -/
theorem line_length_matches_spec_witness :
    line_length emptyStore rowAb = lineLengthSpec emptyStore rowAb ∧
    line_length emptyStore rowAb = 2 :=
  ⟨line_length_matches_spec.1 emptyStore rowAb (by decide),
   line_length_matches_spec.2⟩
